import Mathlib

/-!
# Cylium interpreter — verification of spec claims

Shallow embedding of the Cylium interpreter sources
(`src/interpreter/src/*.rs`) in Lean 4, together with theorems settling
the claims of `CLAIMS.json` against the code.

Modelling conventions:
* Rust `i64` is modelled as `Int`.  Where a settled operation can
  overflow (the `i64` product in `Types.mul`), the release-build
  wrapping behaviour is modelled by an explicit two's-complement
  reduction (`wrap_i64`; a debug build aborts there instead).  The
  saturating `as i64` float-to-integer cast is modelled explicitly
  (`sat_i64`).
* Rust `f64` is modelled as `ℚ`: claims settled here depend only on
  the constructor kind of a value or on values and results that are
  exactly representable in binary64 (`is_f64`) — where IEEE-754
  arithmetic, being correctly rounded, is exact — never on the
  rounding applied outside that domain.
* Fallible Rust code returning `Result` is modelled with `Except` /
  `RRes`; a Rust `panic!`, `unwrap` failure, `todo!` or `unreachable!`
  is the distinguished outcome `RRes.panics`.
* `HashMap` is modelled as an association list with at most one binding
  per key (`insert` removes the previous binding).
-/

set_option maxRecDepth 8000
set_option maxHeartbeats 1000000

namespace Cylium

/-! Error constants from `src/interpreter/src/errors.rs` (verbatim texts,
except that apostrophes and backticks in message texts are dropped; the
claims depend on error identities only, never on message texts). -/

namespace errors

def A02 : String := "A02: Cannot convert value to numeric type."
def A03 : String := "A03: Requested variable does not exist."
def A04 : String := "A04: Expected assignment operator = after variable name."
def A05 : String := "A05: Invalid variable name."
def A07 : String := "A07: Cannot modify a constant variable."
def A08 : String := "A08: Unknown data type."
def A10 : String := "A10: Unclosed bracket."
def A15 : String := "A15: Invalid expression."
def A16 : String := "A16: Invalid type for arithmetic operation."
def A17 : String := "A17: Invalid vector index."
def A18 : String := "A18: This operator can only be used with strings."
def A19 : String := "A19: Cannot convert value to vector."
def A20 : String := "A20: Statements are only allowed inside procedures"
def A21 : String := "A21: Unclosed string."
def A22 : String := "A22: Entry point procedure main not found."
def A23 : String := "A23: Declared variable already exists."
def A24 : String := "A24: Requested procedure does not exist."
def A26 : String := "A26: Expected code for exit."
def A27 : String := "A27: Arguments count do not match."
def C01 : String := "C01: Variable is already of the target type."
def C02 : String := "C02: Failed to read input"

/-- Modelled from the spec: error constants referenced by
`validator.rs` / `parser.rs` but missing from `src/interpreter/src/errors.rs`
(the `errors.rs` revision in `src/` is older than the files that use these).
Spec section 7 names them: `A28` ConstDelete, `A29` (delete target),
`A37` DuplicateDecl, `A38` DuplicateProc, `A39` BadLogicType,
`A40` RedundantCast, `A41` BadTransCastDomain, `A42` TypeMismatch (argument),
`A43` TypeMismatch (declaration/assignment).  Only their identities matter
for the claims, never their texts. -/
def A28 : String := "A28"

def A29 : String := "A29"

def A37 : String := "A37"

def A38 : String := "A38"

def A39 : String := "A39"

def A40 : String := "A40"

def A41 : String := "A41"

def A42 : String := "A42"

def A43 : String := "A43"

end errors

/-- Outcome of a Rust computation that may return `Ok`, return `Err`,
or panic (`unwrap` failure, `todo!`, `unreachable!`). -/
inductive RRes (α : Type) : Type where
  | ok (value : α)
  | err (e : String)
  | panics
  deriving DecidableEq

namespace RRes

def bind {α β : Type} : RRes α → (α → RRes β) → RRes β
  | ok v, f => f v
  | err e, _ => err e
  | panics, _ => panics

instance : Monad RRes where
  pure := ok
  bind := bind

end RRes

/-! ## Models of the Rust standard-library numeric parsers

`str::parse::<i64>` and `str::parse::<f64>` are standard-library
functions (not repository code); they are modelled here from their
documented grammar.  `parse_f64` covers the finite-literal grammar
`[sign] (Digits [. Digits*] | . Digits) [(e|E) [sign] Digits]` and
returns the exact rational value (`inf`/`nan` forms and IEEE-754
rounding are not modelled; no claim depends on them). -/

/-- Numeric value of a digit character. -/
def digitVal (c : Char) : Nat := c.toNat - '0'.toNat

/-- Value of a nonempty all-digit character run, `none` otherwise. -/
def digitsVal : List Char → Option Nat
  | [] => none
  | cs =>
    if cs.all Char.isDigit then
      some (cs.foldl (fun acc c => 10 * acc + digitVal c) 0)
    else none

/-- The optional leading `+`/`-` sign of the numeric grammars: whether
the value is negated, and the remaining characters. -/
def strip_sign (cs : List Char) : Bool × List Char :=
  match cs with
  | [] => (false, [])
  | c :: r =>
    if c = '+' then (false, r)
    else if c = '-' then (true, r)
    else (false, c :: r)

/-- Model of Rust `str::parse::<i64>`: optional sign, nonempty digit run,
value within the `i64` range. -/
def parse_i64 (s : String) : Option Int :=
  let (neg, digits) := strip_sign s.data
  match digitsVal digits with
  | none => none
  | some v =>
    let n : Int := if neg then -(v : Int) else (v : Int)
    if -(2 ^ 63) ≤ n ∧ n ≤ 2 ^ 63 - 1 then some n else none

/-- Exponent / end-of-string tail of the `f64` grammar. -/
def parse_f64_exp (mantissa : ℚ) : List Char → Option ℚ
  | [] => some mantissa
  | c :: r =>
    if c = 'e' ∨ c = 'E' then
      let (eneg, edigits) := strip_sign r
      match digitsVal edigits with
      | some e =>
        some (mantissa *
          (10 : ℚ) ^ (if eneg then -(e : Int) else (e : Int)))
      | none => none
    else none

/-- Model of Rust `str::parse::<f64>` on finite numeric literals
(exact rational value; see module comment). -/
def parse_f64 (s : String) : Option ℚ :=
  let (neg, cs) := strip_sign s.data
  let sign : ℚ := if neg then -1 else 1
  let ip := cs.takeWhile Char.isDigit
  let r₁ := cs.dropWhile Char.isDigit
  match r₁ with
  | '.' :: r₂ =>
    let fp := r₂.takeWhile Char.isDigit
    let r₃ := r₂.dropWhile Char.isDigit
    if ip = [] ∧ fp = [] then none
    else
      let mantissa : ℚ :=
        (ip.foldl (fun acc c => 10 * acc + digitVal c) 0 : Nat) +
          (fp.foldl (fun acc c => 10 * acc + digitVal c) 0 : Nat) /
            (10 : ℚ) ^ fp.length
      parse_f64_exp (sign * mantissa) r₃
  | _ =>
    if ip = [] then none
    else
      parse_f64_exp
        (sign * ((ip.foldl (fun acc c => 10 * acc + digitVal c) 0 : Nat) : ℚ)) r₁

/-- Saturating Rust `as i64` cast of an (already rounded) value:
float-to-integer `as` casts clamp to the target range. -/
def sat_i64 (n : Int) : Int :=
  if n < -(2 ^ 63) then -(2 ^ 63)
  else if n > 2 ^ 63 - 1 then 2 ^ 63 - 1
  else n

/-- Two's-complement reduction of an integer product into the `i64`
range: the release-build behaviour of an overflowing Rust `i64`
multiplication (a debug build aborts instead of wrapping).  Equal to
the identity on the `i64` range. -/
def wrap_i64 (n : Int) : Int :=
  (n + 2 ^ 63) % 2 ^ 64 - 2 ^ 63

/-- Exact representability of a rational as a finite IEEE-754 binary64
value: `m · 2^e` with `|m| ≤ 2^53 - 1` and `-1074 ≤ e ≤ 971`.  Binary64
multiplication is correctly rounded, so on arguments whose exact
product is representable it returns that exact product; the exact
`ℚ`-payload model of a `Float` product is therefore faithful exactly
on this domain, and product theorems below are scoped to it. -/
def is_f64 (q : ℚ) : Prop :=
  ∃ m e : Int, q = (m : ℚ) * (2 : ℚ) ^ e ∧
    m.natAbs ≤ 2 ^ 53 - 1 ∧ -1074 ≤ e ∧ e ≤ 971

/-- Model of Rust `f64::round`: nearest integer, ties away from zero. -/
def round_away (q : ℚ) : Int :=
  if 0 ≤ q then ⌊q + 1 / 2⌋ else -⌊-q + 1 / 2⌋

/-! ## Runtime values — `src/interpreter/src/types.rs` -/

/-- Alias for the ambient string type, usable inside the `Types`
namespace where the bare name `String` denotes the constructor
`Types.String`. -/
abbrev Str : Type := String

/-- `Types` — the runtime value union (`types.rs`). -/
inductive Types : Type where
  | Vector (value : List Types)
  | String (value : String)
  | Boolean (value : Bool)
  | Number (value : Int)
  | Float (value : ℚ)

/-- `Types::create` (`types.rs` lines 18–30): try `i64`, then `f64`,
then the boolean words, else keep the text as a `String` value. -/
def Types.create (value : Str) : Types :=
  match parse_i64 value with
  | some number => .Number number
  | none =>
    match parse_f64 value with
    | some float => .Float float
    | none =>
      if value = "true" then .Boolean true
      else if value = "false" then .Boolean false
      else .String value

/-- `Types::as_number` (`types.rs`). -/
def Types.as_number : Types → Except Str Int
  | .Number value => .ok value
  | _ => .error errors.A16

/-- `Types::as_float` (`types.rs`). -/
def Types.as_float : Types → Except Str ℚ
  | .Float value => .ok value
  | _ => .error errors.A16

/-- `Types::as_string` (`types.rs`). -/
def Types.as_string : Types → Except Str Str
  | .String value => .ok value
  | _ => .error errors.A16

/-- `Types::as_bool` (`types.rs`). -/
def Types.as_bool : Types → Except Str Bool
  | .Boolean value => .ok value
  | _ => .error errors.A16

/-- The string built by `for _ in 0..n { result.push_str(s) }`:
`s` appended `n` times (a Rust `0..n` range is empty for `n ≤ 0`,
hence callers pass `Int.toNat`). -/
def str_repeat (s : String) : Nat → String
  | 0 => ""
  | n + 1 => str_repeat s n ++ s

mutual

/-- `Types::convert_to_bool` (`types.rs` lines 98–124).  The receiver is
mutated in place in Rust; here the new value is returned.  The `String`
arm is `value.parse::<bool>().unwrap()`: the Rust `bool` parser accepts
exactly `"true"` and `"false"`, so any other string panics (`unwrap`). -/
def Types.convert_to_bool : Types → RRes (Types × Option Str)
  | .Vector value => do
    let (value', warning) ← Types.convert_to_bool_list value
    .ok (.Vector value', warning)
  | .String value =>
    if value = "true" then .ok (.Boolean true, none)
    else if value = "false" then .ok (.Boolean false, none)
    else .panics
  | .Boolean value => .ok (.Boolean value, some errors.C01)
  | .Number value => .ok (.Boolean (value ≠ 0), none)
  | .Float value => .ok (.Boolean (value ≠ 0), none)

/-- The member loop of `convert_to_bool` on a `Vector`: each member is
converted in order; the warning kept is the last one produced. -/
def Types.convert_to_bool_list : List Types → RRes (List Types × Option Str)
  | [] => .ok ([], none)
  | m :: ms => do
    let (m', w) ← Types.convert_to_bool m
    let (ms', w') ← Types.convert_to_bool_list ms
    .ok (m' :: ms', w'.rec w some)

end

mutual

/-- `Types::convert_to_number` (`types.rs` lines 140–177).  A `String`
is parsed as `i64` (`A02` on failure); a `Boolean` becomes `1`/`0`;
a `Number` is kept with warning `C01`; a `Float` is `value.round() as i64`
(round half away from zero, then saturating cast). -/
def Types.convert_to_number : Types → RRes (Types × Option Str)
  | .Vector value => do
    let (value', warning) ← Types.convert_to_number_list value
    .ok (.Vector value', warning)
  | .String value =>
    match parse_i64 value with
    | some val => .ok (.Number val, none)
    | none => .err errors.A02
  | .Boolean value => .ok (.Number (if value then 1 else 0), none)
  | .Number value => .ok (.Number value, some errors.C01)
  | .Float value => .ok (.Number (sat_i64 (round_away value)), none)

/-- The member loop of `convert_to_number` on a `Vector`. -/
def Types.convert_to_number_list : List Types → RRes (List Types × Option Str)
  | [] => .ok ([], none)
  | m :: ms => do
    let (m', w) ← Types.convert_to_number m
    let (ms', w') ← Types.convert_to_number_list ms
    .ok (m' :: ms', w'.rec w some)

end

/-- `Types::mul` (`types.rs` lines 237–266).  A `String` times a
`Number n` repeats the string `n` times (`0..n` iterations, so none for
`n ≤ 0`); a `Number` times a `Number` is the `i64` product
`value * num` — wrapping on overflow in a release build, modelled by
`wrap_i64` (a debug build aborts there) — and a `Number` times a
`String` also repeats; `Float` times `Float` is the binary64 product of
the payloads, exact here and faithful on the `is_f64`-exact domain
(see `is_f64`). -/
def Types.mul (a rhs : Types) : Except Str Types :=
  match a with
  | .String value =>
    match rhs.as_number with
    | .ok n => .ok (.String (str_repeat value n.toNat))
    | .error e => .error e
  | .Number value =>
    match rhs.as_number with
    | .ok num => .ok (.Number (wrap_i64 (value * num)))
    | .error _ =>
      match rhs.as_string with
      | .ok string => .ok (.String (str_repeat string value.toNat))
      | .error e => .error e
  | .Float value =>
    match rhs.as_float with
    | .ok f => .ok (.Float (value * f))
    | .error e => .error e
  | _ => .error errors.A16

/-! ## Scopes — `src/interpreter/src/scope.rs` -/

/-- `Scope` (`scope.rs`): a `HashMap<String, (Types, bool)>`, modelled
as an association list with at most one binding per key. -/
structure Scope : Type where
  vars : List (String × (Types × Bool))

namespace Scope

/-- `Scope::new`. -/
def new : Scope := ⟨[]⟩

/-- `Scope::get_raw` — `self.vars.get(name)`. -/
def get_raw (s : Scope) (name : String) : Option (Types × Bool) :=
  (s.vars.find? (fun p => p.1 == name)).map (fun p => p.2)

/-- `Scope::exist` — `self.vars.contains_key(name)`. -/
def exist (s : Scope) (name : String) : Bool :=
  s.vars.any (fun p => p.1 == name)

/-- `Scope::get` — lookup in the local frame first, then in `consts`. -/
def get (s consts : Scope) (name : String) : Option (Types × Bool) :=
  match s.get_raw name with
  | some v => some v
  | none => consts.get_raw name

/-- `Scope::remove` — `self.vars.remove(name).is_some()`: unconditionally
removes the binding (const or not) and reports whether it was present. -/
def remove (s : Scope) (name : String) : Scope × Bool :=
  (⟨s.vars.filter (fun p => !(p.1 == name))⟩, s.exist name)

/-- `Scope::declare` — `self.vars.insert(name, (value, is_const))`:
unconditionally inserts or overwrites, whatever the previous binding. -/
def declare (s : Scope) (name : String) (value : Types) (is_const : Bool) :
    Scope :=
  ⟨(name, (value, is_const)) :: s.vars.filter (fun p => !(p.1 == name))⟩

end Scope

/-! ## Lexer — `src/interpreter/src/lexer.rs`

This is the token type and per-line scanner of `lexer.rs` (an older
revision than `parser.rs`: its literals are carried as `Value (Types)`
and it lacks the `for`-loop keywords).  Non-ASCII identifier characters
are not modelled (`is_alphabetic` is Unicode in Rust, ASCII here); no
claim involves non-ASCII input. -/

/-- `Token` of `src/interpreter/src/lexer.rs`. -/
inductive LToken : Type where
  | Ident (name : String)
  | Value (value : Types)
  | Call | As | While | EndWhile | Var | Const | If | Else | EndIf
  | Echo | Exit | Delete | Proc | End
  | Plus | Minus | Multiply | Divide | Mod
  | Assign | PlusAssign | MinusAssign | MultiplyAssign | DivideAssign
  | ModAssign
  | Equal | NotEqual | Greater | Less | GreaterEqual | LessEqual
  | And | Or | Not
  | OpenParen | CloseParen | OpenBracket | CloseBracket
  | OpenBrace | CloseBrace | Comma

/-- `check` (`lexer.rs` lines 73–80): two-character operator lookahead;
returns the chosen token and the updated index. -/
def check (chars : List Char) (i : Nat) (single double : LToken) :
    LToken × Nat :=
  if chars.get? (i + 1) = some '=' then (double, i + 1) else (single, i)

/-- The keyword table at the end of `tokenize_line` (`lexer.rs`
lines 164–185). -/
def keyword_token (ident : String) : LToken :=
  if ident = "true" then .Value (.Boolean true)
  else if ident = "false" then .Value (.Boolean false)
  else if ident = "call" then .Call
  else if ident = "as" then .As
  else if ident = "var" then .Var
  else if ident = "const" then .Const
  else if ident = "if" then .If
  else if ident = "else" then .Else
  else if ident = "endif" then .EndIf
  else if ident = "endwhile" then .EndWhile
  else if ident = "echo" then .Echo
  else if ident = "exit" then .Exit
  else if ident = "delete" then .Delete
  else if ident = "proc" then .Proc
  else if ident = "end" then .End
  else if ident = "while" then .While
  else if ident = "not" then .Not
  else if ident = "and" then .And
  else if ident = "or" then .Or
  else .Ident ident

/-- The string-literal scan of `tokenize_line` (`lexer.rs` lines
126–139): starting just after the opening quote, collect characters
until an unescaped `"` (previous character not a backslash); result is
the contents and the index of the closing quote, or `none` when the
line ends first (`A21`).  Fuel-indexed; `chars.length + 1` always
suffices since the index increases at every step. -/
def scan_string (chars : List Char) : Nat → Nat → Option (String × Nat)
  | _, 0 => none
  | i, fuel + 1 =>
    match chars.get? i with
    | none => none
    | some c =>
      if chars.get? (i - 1) ≠ some '\\' ∧ c = '"' then some ("", i)
      else
        match scan_string chars (i + 1) fuel with
        | some (rest, j) => some (String.mk (c :: rest.data), j)
        | none => none

/-- The character predicate of the numeric-literal scan
(`lexer.rs` line 144): digits or a dot. -/
def is_num_char (c : Char) : Bool := c.isDigit ∨ c = '.'

/-- The character predicate of the identifier scan
(`lexer.rs` lines 153–158). -/
def is_ident_char (c : Char) : Bool :=
  c.isAlphanum ∨ c = '_' ∨ c = '[' ∨ c = ']'

/-- The scan loop of `tokenize_line` (`lexer.rs` lines 87–193),
fuel-indexed (the index strictly increases per iteration, so
`chars.length + 1 - i` steps always suffice). -/
def tokenize_go (chars : List Char) : Nat → Nat → Except String (List LToken)
  | _, 0 => .error "fuel exhausted (unreachable with fuel > chars.length)"
  | i, fuel + 1 =>
    match chars.get? i with
    | none => .ok []
    | some c =>
      if c = ' ' ∨ c = '	' then tokenize_go chars (i + 1) fuel
      else if c = '(' then
        (tokenize_go chars (i + 1) fuel).map (LToken.OpenParen :: ·)
      else if c = ')' then
        (tokenize_go chars (i + 1) fuel).map (LToken.CloseParen :: ·)
      else if c = '[' then
        (tokenize_go chars (i + 1) fuel).map (LToken.OpenBracket :: ·)
      else if c = ']' then
        (tokenize_go chars (i + 1) fuel).map (LToken.CloseBracket :: ·)
      else if c = '{' then
        (tokenize_go chars (i + 1) fuel).map (LToken.OpenBrace :: ·)
      else if c = '}' then
        (tokenize_go chars (i + 1) fuel).map (LToken.CloseBrace :: ·)
      else if c = ',' then
        (tokenize_go chars (i + 1) fuel).map (LToken.Comma :: ·)
      else if c = '+' then
        let (tok, j) := check chars i .Plus .PlusAssign
        (tokenize_go chars (j + 1) fuel).map (tok :: ·)
      else if c = '-' then
        let (tok, j) := check chars i .Minus .MinusAssign
        (tokenize_go chars (j + 1) fuel).map (tok :: ·)
      else if c = '/' then
        let (tok, j) := check chars i .Divide .DivideAssign
        (tokenize_go chars (j + 1) fuel).map (tok :: ·)
      else if c = '%' then
        let (tok, j) := check chars i .Mod .ModAssign
        (tokenize_go chars (j + 1) fuel).map (tok :: ·)
      else if c = '=' then
        let (tok, j) := check chars i .Assign .Equal
        (tokenize_go chars (j + 1) fuel).map (tok :: ·)
      else if c = '>' then
        let (tok, j) := check chars i .Greater .GreaterEqual
        (tokenize_go chars (j + 1) fuel).map (tok :: ·)
      else if c = '<' then
        let (tok, j) := check chars i .Less .LessEqual
        (tokenize_go chars (j + 1) fuel).map (tok :: ·)
      else if c = '*' then
        let (tok, j) := check chars i .Multiply .MultiplyAssign
        (tokenize_go chars (j + 1) fuel).map (tok :: ·)
      else if c = '!' then
        if chars.get? (i + 1) = some '=' then
          (tokenize_go chars (i + 2) fuel).map (LToken.NotEqual :: ·)
        else .error errors.A15
      else if c = '"' then
        match scan_string chars (i + 1) (chars.length + 1) with
        | some (string, j) =>
          (tokenize_go chars (j + 1) fuel).map
            (LToken.Value (Types.String string) :: ·)
        | none => .error errors.A21
      else if c.isDigit then
        let run := (chars.drop i).takeWhile is_num_char
        (tokenize_go chars (i + run.length) fuel).map
          (LToken.Value (Types.create (String.mk run)) :: ·)
      else if c.isAlpha ∨ c = '_' then
        let run := (chars.drop i).takeWhile is_ident_char
        (tokenize_go chars (i + run.length) fuel).map
          (keyword_token (String.mk run) :: ·)
      else .error errors.A15

/-- `tokenize_line` (`lexer.rs` lines 82–196). -/
def tokenize_line (line : String) : Except String (List LToken) :=
  tokenize_go line.data 0 (line.data.length + 1)


/-! ## Parser — `src/interpreter/src/parser.rs`

`parser.rs` (and `validator.rs`/`bytecode.rs`) match on a `Token` type
richer than the one in `src/lexer.rs`: literal payloads appear as
`NumberValue`/`FloatValue`/`StringValue`/`BooleanValue`, and the
`for`-loop keywords, type keywords and `Colon` exist.  That revision of
the lexer is not under `src/`; the `Token` type below is reconstructed
from its uses in `parser.rs`, `validator.rs` and `bytecode.rs` together
with the older `lexer.rs` punctuation set. -/

/-- `Token` as consumed by `parser.rs` (see section comment). -/
inductive Token : Type where
  | Ident (name : String)
  | NumberValue (value : Int)
  | FloatValue (value : ℚ)
  | StringValue (value : String)
  | BooleanValue (value : Bool)
  | Call | As | While | EndWhile | Var | Const | If | Else | EndIf
  | Echo | Exit | Delete | Proc | End
  | For | From | To | Step | EndFor | Colon
  | Number | Float | String | Bool
  | Plus | Minus | Multiply | Divide | Mod
  | Assign | PlusAssign | MinusAssign | MultiplyAssign | DivideAssign
  | ModAssign
  | Equal | NotEqual | Greater | Less | GreaterEqual | LessEqual
  | And | Or | Not
  | OpenParen | CloseParen | OpenBracket | CloseBracket
  | OpenBrace | CloseBrace | Comma

/-- Constructor encoding of `Token`: the payload-free constructors in
order, then the five payload-carrying ones.  Used to build decidable
equality without the quadratic derived matcher. -/
def token_encode : Token → Nat ⊕ ((String × Nat) ⊕ (Int ⊕ (ℚ ⊕ Bool)))
  | .Ident s => .inr (.inl (s, 0))
  | .StringValue s => .inr (.inl (s, 1))
  | .NumberValue v => .inr (.inr (.inl v))
  | .FloatValue q => .inr (.inr (.inr (.inl q)))
  | .BooleanValue b => .inr (.inr (.inr (.inr b)))
  | .Call => .inl 0
  | .As => .inl 1
  | .While => .inl 2
  | .EndWhile => .inl 3
  | .Var => .inl 4
  | .Const => .inl 5
  | .If => .inl 6
  | .Else => .inl 7
  | .EndIf => .inl 8
  | .Echo => .inl 9
  | .Exit => .inl 10
  | .Delete => .inl 11
  | .Proc => .inl 12
  | .End => .inl 13
  | .For => .inl 14
  | .From => .inl 15
  | .To => .inl 16
  | .Step => .inl 17
  | .EndFor => .inl 18
  | .Colon => .inl 19
  | .Number => .inl 20
  | .Float => .inl 21
  | .String => .inl 22
  | .Bool => .inl 23
  | .Plus => .inl 24
  | .Minus => .inl 25
  | .Multiply => .inl 26
  | .Divide => .inl 27
  | .Mod => .inl 28
  | .Assign => .inl 29
  | .PlusAssign => .inl 30
  | .MinusAssign => .inl 31
  | .MultiplyAssign => .inl 32
  | .DivideAssign => .inl 33
  | .ModAssign => .inl 34
  | .Equal => .inl 35
  | .NotEqual => .inl 36
  | .Greater => .inl 37
  | .Less => .inl 38
  | .GreaterEqual => .inl 39
  | .LessEqual => .inl 40
  | .And => .inl 41
  | .Or => .inl 42
  | .Not => .inl 43
  | .OpenParen => .inl 44
  | .CloseParen => .inl 45
  | .OpenBracket => .inl 46
  | .CloseBracket => .inl 47
  | .OpenBrace => .inl 48
  | .CloseBrace => .inl 49
  | .Comma => .inl 50

/-- The payload-free constructors in `Token.encode` order. -/
def token_tag_list : List Token :=
  [.Call, .As, .While, .EndWhile, .Var, .Const, .If, .Else, .EndIf,
   .Echo, .Exit, .Delete, .Proc, .End, .For, .From, .To, .Step, .EndFor,
   .Colon, .Number, .Float, .String, .Bool, .Plus, .Minus, .Multiply,
   .Divide, .Mod, .Assign, .PlusAssign, .MinusAssign, .MultiplyAssign,
   .DivideAssign, .ModAssign, .Equal, .NotEqual, .Greater, .Less,
   .GreaterEqual, .LessEqual, .And, .Or, .Not, .OpenParen, .CloseParen,
   .OpenBracket, .CloseBracket, .OpenBrace, .CloseBrace, .Comma]

/-- Left inverse of `Token.encode`. -/
def token_decode : Nat ⊕ ((String × Nat) ⊕ (Int ⊕ (ℚ ⊕ Bool))) → Option Token
  | .inl k => token_tag_list.get? k
  | .inr (.inl (s, 0)) => some (.Ident s)
  | .inr (.inl (s, 1)) => some (.StringValue s)
  | .inr (.inl _) => none
  | .inr (.inr (.inl v)) => some (.NumberValue v)
  | .inr (.inr (.inr (.inl q))) => some (.FloatValue q)
  | .inr (.inr (.inr (.inr b))) => some (.BooleanValue b)

instance : DecidableEq Token := fun a b =>
  decidable_of_iff (token_encode a = token_encode b) (by
    have hde : ∀ t : Token, token_decode (token_encode t) = some t := by
      intro t
      cases t <;> rfl
    constructor
    · intro h
      have h2 := congrArg token_decode h
      rw [hde a, hde b] at h2
      exact Option.some.inj h2
    · intro h
      rw [h])

/-- `TypesCheck` — the static type lattice.  Used by `parser.rs`,
`validator.rs` and `bytecode.rs` as `crate::types::TypesCheck`; the
`types.rs` revision under `src/` does not define it.  Reconstructed
from its four variants used there (spec section 3:
`{ Number, Float, String, Boolean }`). -/
inductive TypesCheck : Type where
  | Number | Float | String | Boolean
  deriving DecidableEq

/-- `Cast` (`parser.rs` lines 99–107). -/
inductive Cast : Type where
  | String | Number | Float | Boolean | Sin | Cos | Sqrt
  deriving DecidableEq

mutual

/-- `AstKind` (`parser.rs` lines 24–90).  Boxed children become direct
fields; the commented-out `Vector`/`MethodCall` variants are omitted as
in the source. -/
inductive AstKind : Type where
  | Ident (name : String)
  | Number (value : Int)
  | Float (value : ℚ)
  | String (value : String)
  | Boolean (value : Bool)
  | Delete (name : String)
  | Echo (expr : AstKind)
  | Exit (code : Int)
  | Proc (name : String) (body : List AstNode)
      (args : List (String × TypesCheck))
  | VarDecl (name : String) (type_ : TypesCheck) (value : AstKind)
      (is_const : Bool)
  | ProcCall (name : String) (args : List Token)
  | Assign (name : String) (op : Token) (expr : AstKind)
  | BinaryOp (left : AstKind) (op : Token) (right : AstKind)
  | UnaryOp (op : Token) (expr : AstKind)
  | AsOp (expr : AstKind) (op : Cast)
  | Condition (expr : AstKind) (yes : List AstNode) (no : Option ElseBlock)
  | While (expr : AstKind) (body : List AstNode)
  | For (var_name : String) (start : AstKind) (stop : AstKind)
      (step : Option AstKind) (body : List AstNode)

/-- `AstNode` (`parser.rs` lines 17–21): a kind with its source line. -/
inductive AstNode : Type where
  | mk (line : Nat) (kind : AstKind)

/-- `ElseBlock` (`parser.rs` lines 92–96). -/
inductive ElseBlock : Type where
  | ElseIf (node : AstNode)
  | Else (nodes : List AstNode)

end

/-- Field accessor for `AstNode.line`. -/
def AstNode.line : AstNode → Nat
  | .mk l _ => l

/-- Field accessor for `AstNode.kind`. -/
def AstNode.kind : AstNode → AstKind
  | .mk _ k => k

/-- Outcome of a parser computation: `Ok`, `Err`, a panic (`todo!`),
or fuel exhaustion (an artifact of the fuel-indexed embedding, never
reached for the inputs considered in the theorems below). -/
inductive PRes (α : Type) : Type where
  | ok (value : α)
  | err (e : String)
  | panics
  | fuel

namespace PRes

def bind {α β : Type} : PRes α → (α → PRes β) → PRes β
  | ok v, f => f v
  | err e, _ => err e
  | panics, _ => panics
  | fuel, _ => fuel

instance : Monad PRes where
  pure := ok
  bind := bind

end PRes

/-- The `(line, pos)` cursor of `Parser`, restricted to a single token
line: `parse_expr` and `parse_value` never call `next_line`, so their
behaviour is a function of the current line's tokens and `pos`. -/
structure PState : Type where
  tokens : List Token
  pos : Nat
  deriving DecidableEq

/-- `Parser::current_token` (`parser.rs` lines 137–141) on the current
line. -/
def current_token (s : PState) : Option Token :=
  s.tokens.get? s.pos

/-- Advance `self.pos += 1`. -/
def advance (s : PState) : PState :=
  ⟨s.tokens, s.pos + 1⟩

/-- `Parser::precedence` (`parser.rs` lines 358–373). -/
def precedence : Token → Option Nat
  | .Or => some 1
  | .And => some 2
  | .Equal => some 3
  | .NotEqual => some 3
  | .Greater => some 3
  | .Less => some 3
  | .GreaterEqual => some 3
  | .LessEqual => some 3
  | .Plus => some 4
  | .Minus => some 4
  | .Multiply => some 5
  | .Divide => some 5
  | .Mod => some 5
  | .As => some 7
  | _ => none

/-- The cast-name table inside `parse_expr`'s `as` handling
(`parser.rs` lines 331–341). -/
def cast_of_name (name : String) : Option Cast :=
  if name = "string" then some .String
  else if name = "number" then some .Number
  else if name = "float" then some .Float
  else if name = "bool" then some .Boolean
  else if name = "sin" then some .Sin
  else if name = "cos" then some .Cos
  else if name = "sqrt" then some .Sqrt
  else none

mutual

/-- `Parser::parse_expr` (`parser.rs` lines 249–356): Pratt parser.
The leading atom (unary operator applied to a level-6 operand,
parenthesised expression, identifier, type keyword as identifier, or
literal) followed by the binary-operator loop.  Fuel-indexed: every
recursive call consumes one unit. -/
def parse_expr : Nat → Nat → PState → PRes (AstKind × PState)
  | 0, _, _ => .fuel
  | fuel + 1, min_prec, s =>
    match current_token s with
    | some Token.Minus => do
      let (expr, s') ← parse_expr fuel 6 (advance s)
      parse_loop fuel min_prec (.UnaryOp .Minus expr) s'
    | some Token.Not => do
      let (expr, s') ← parse_expr fuel 6 (advance s)
      parse_loop fuel min_prec (.UnaryOp .Not expr) s'
    | some Token.OpenParen => do
      let (expr, s') ← parse_expr fuel 0 (advance s)
      match current_token s' with
      | some Token.CloseParen => parse_loop fuel min_prec expr (advance s')
      | _ => .err errors.A10
    | some (Token.Ident name) =>
      parse_loop fuel min_prec (.Ident name) (advance s)
    | some Token.Number =>
      parse_loop fuel min_prec (.Ident "number") (advance s)
    | some Token.Float =>
      parse_loop fuel min_prec (.Ident "float") (advance s)
    | some Token.String =>
      parse_loop fuel min_prec (.Ident "string") (advance s)
    | some Token.Bool =>
      parse_loop fuel min_prec (.Ident "bool") (advance s)
    | some (Token.NumberValue v) =>
      parse_loop fuel min_prec (.Number v) (advance s)
    | some (Token.FloatValue v) =>
      parse_loop fuel min_prec (.Float v) (advance s)
    | some (Token.StringValue v) =>
      parse_loop fuel min_prec (.String v) (advance s)
    | some (Token.BooleanValue v) =>
      parse_loop fuel min_prec (.Boolean v) (advance s)
    | _ => .err errors.A15

/-- The binary-operator loop of `parse_expr` (`parser.rs` lines
312–353): while the current token is an operator of precedence at
least `min_prec`, parse the right operand at `prec + 1` and fold it
into `left` (an `AsOp` when the operator is `as` and the operand is a
cast name, `A15` otherwise; else a `BinaryOp`). -/
def parse_loop : Nat → Nat → AstKind → PState → PRes (AstKind × PState)
  | 0, _, _, _ => .fuel
  | fuel + 1, min_prec, left, s =>
    match current_token s with
    | none => .ok (left, s)
    | some tok =>
      match precedence tok with
      | none => .ok (left, s)
      | some prec =>
        if min_prec ≤ prec then do
          let (right, s') ← parse_expr fuel (prec + 1) (advance s)
          if tok = Token.As then
            match right with
            | .Ident name =>
              match cast_of_name name with
              | some op => parse_loop fuel min_prec (.AsOp left op) s'
              | none => .err errors.A15
            | _ => .err errors.A15
          else parse_loop fuel min_prec (.BinaryOp left tok right) s'
        else .ok (left, s)

end

/-- `matches!(first, Number | Float | String | Boolean)` of
`parse_value` (`parser.rs` lines 217–222). -/
def is_literal_kind : AstKind → Bool
  | .Number _ => true
  | .Float _ => true
  | .String _ => true
  | .Boolean _ => true
  | _ => false

/-- The comma-collection loop of `parse_value` (`parser.rs` lines
226–239); the collected values are returned for fidelity although the
caller reaches `todo!()` after the loop. -/
def parse_value_loop : Nat → PState → PRes (List AstKind × PState)
  | 0, _ => .fuel
  | fuel + 1, s =>
    if current_token s = some Token.Comma then do
      let (new, s') ← parse_expr fuel 0 (advance s)
      if is_literal_kind new then do
        let (values, s'') ← parse_value_loop fuel s'
        .ok (new :: values, s'')
      else .err errors.A19
    else .ok ([], s)

/-- `Parser::parse_value` (`parser.rs` lines 203–247).  A single
expression must be followed by the end of line, `to`, or `step`
(`A15` otherwise).  When a comma follows instead, the first expression
and every further comma-separated expression must be a literal
(`A19` otherwise) — and after a successful collection the function
reaches the commented-out vector construction's `todo!()`: it panics
(`A15` instead when trailing tokens remain). -/
def parse_value (fuel : Nat) (s : PState) : PRes (AstKind × PState) := do
  let (first, s₁) ← parse_expr fuel 0 s
  if current_token s₁ ≠ some Token.Comma then
    if ¬(current_token s₁ = none ∨ current_token s₁ = some Token.To ∨
        current_token s₁ = some Token.Step) then
      .err errors.A15
    else .ok (first, s₁)
  else
    if ¬is_literal_kind first then .err errors.A19
    else do
      let (_values, s₂) ← parse_value_loop fuel s₁
      if (current_token s₂).isSome then .err errors.A15
      else .panics


/-! ## Validator — `src/interpreter/src/validator.rs` -/

/-- `HashMap` lookup on the association-list model. -/
def lookupA {α : Type} (m : List (String × α)) (k : String) : Option α :=
  (m.find? (fun p => p.1 == k)).map (fun p => p.2)

/-- `HashMap::insert` on the association-list model: returns the
previous binding (as Rust's `insert` does) and the updated map. -/
def insertA {α : Type} (m : List (String × α)) (k : String) (v : α) :
    Option α × List (String × α) :=
  (lookupA m k, (k, v) :: m.filter (fun p => !(p.1 == k)))

/-- `HashMap::remove` on the association-list model. -/
def removeA {α : Type} (m : List (String × α)) (k : String) :
    Option α × List (String × α) :=
  (lookupA m k, m.filter (fun p => !(p.1 == k)))

/-- The variable table of a procedure check: name to (type, is_const). -/
abbrev VarTable : Type := List (String × (TypesCheck × Bool))

/-- The constant table: top-level constant name to declared type. -/
abbrev ConstTable : Type := List (String × TypesCheck)

/-- The procedure table: name to parameter list. -/
abbrev ProcTable : Type := List (String × List (String × TypesCheck))

/-- `expr_check` (`validator.rs` lines 230–384): infers the static type
of an expression; identifier lookup resolves `vars` first, then
`consts`, then the reserved name `input` (a `String`), else `A03`. -/
def expr_check (vars : VarTable) (consts : ConstTable) :
    AstKind → Except String TypesCheck
  | .Number _ => .ok .Number
  | .Float _ => .ok .Float
  | .String _ => .ok .String
  | .Boolean _ => .ok .Boolean
  | .Ident name =>
    match lookupA vars name with
    | some (value, _) => .ok value
    | none =>
      match lookupA consts name with
      | some value => .ok value
      | none =>
        if name = "input" then .ok .String else .error errors.A03
  | .UnaryOp op expr => do
    let value ← expr_check vars consts expr
    match op with
    | Token.Not =>
      match value with
      | .Boolean => .ok .Boolean
      | _ => .error errors.A39
    | Token.Minus =>
      match value with
      | .Number => .ok .Number
      | .Float => .ok .Float
      | _ => .error errors.A16
    | _ => .error errors.A15
  | .AsOp expr op => do
    let value ← expr_check vars consts expr
    match op with
    | .String =>
      match value with
      | TypesCheck.String => .error errors.A40
      | _ => .ok .String
    | .Number =>
      match value with
      | TypesCheck.Number => .error errors.A40
      | _ => .ok .Number
    | .Float =>
      match value with
      | TypesCheck.Float => .error errors.A40
      | _ => .ok .Float
    | .Boolean =>
      match value with
      | TypesCheck.Boolean => .error errors.A40
      | _ => .ok .Boolean
    | .Sin =>
      match value with
      | TypesCheck.Float => .ok .Float
      | _ => .error errors.A41
    | .Cos =>
      match value with
      | TypesCheck.Float => .ok .Float
      | _ => .error errors.A41
    | .Sqrt =>
      match value with
      | TypesCheck.Float => .ok .Float
      | _ => .error errors.A41
  | .BinaryOp l op r => do
    let left ← expr_check vars consts l
    let right ← expr_check vars consts r
    match op with
    | Token.Or =>
      match left, right with
      | .Boolean, .Boolean => .ok .Boolean
      | _, _ => .error errors.A39
    | Token.And =>
      match left, right with
      | .Boolean, .Boolean => .ok .Boolean
      | _, _ => .error errors.A39
    | Token.Equal =>
      match left, right with
      | .String, .String => .ok .Boolean
      | .Boolean, .Boolean => .ok .Boolean
      | .Number, .Number => .ok .Boolean
      | .Float, .Float => .ok .Boolean
      | _, _ => .error errors.A39
    | Token.NotEqual =>
      match left, right with
      | .String, .String => .ok .Boolean
      | .Boolean, .Boolean => .ok .Boolean
      | .Number, .Number => .ok .Boolean
      | .Float, .Float => .ok .Boolean
      | _, _ => .error errors.A39
    | Token.Greater =>
      match left, right with
      | .String, .String => .ok .Boolean
      | .Number, .Number => .ok .Boolean
      | .Float, .Float => .ok .Boolean
      | _, _ => .error errors.A39
    | Token.Less =>
      match left, right with
      | .String, .String => .ok .Boolean
      | .Number, .Number => .ok .Boolean
      | .Float, .Float => .ok .Boolean
      | _, _ => .error errors.A39
    | Token.GreaterEqual =>
      match left, right with
      | .String, .String => .ok .Boolean
      | .Number, .Number => .ok .Boolean
      | .Float, .Float => .ok .Boolean
      | _, _ => .error errors.A39
    | Token.LessEqual =>
      match left, right with
      | .String, .String => .ok .Boolean
      | .Number, .Number => .ok .Boolean
      | .Float, .Float => .ok .Boolean
      | _, _ => .error errors.A39
    | Token.Plus =>
      match left, right with
      | .String, .String => .ok .String
      | .Number, .Number => .ok .Number
      | .Float, .Float => .ok .Float
      | _, _ => .error errors.A16
    | Token.Minus =>
      match left, right with
      | .Number, .Number => .ok .Number
      | .Float, .Float => .ok .Float
      | _, _ => .error errors.A16
    | Token.Multiply =>
      match left, right with
      | .String, .Number => .ok .String
      | .Number, .String => .ok .String
      | .Number, .Number => .ok .Number
      | .Float, .Float => .ok .Float
      | _, _ => .error errors.A16
    | Token.Divide =>
      match left, right with
      | .Number, .Number => .ok .Number
      | .Float, .Float => .ok .Float
      | _, _ => .error errors.A16
    | Token.Mod =>
      match left, right with
      | .Number, .Number => .ok .Number
      | _, _ => .error errors.A16
    | _ => .error "unreachable"
  | _ => .error errors.A15

/-- The per-argument loop of the `ProcCall` check (`validator.rs`
lines 140–155). -/
def proc_call_args_check (vars : VarTable) (consts : ConstTable) :
    List Token → List (String × TypesCheck) → PRes Unit
  | [], _ => .ok ()
  | arg :: args, params =>
    match params with
    | [] => .panics
    | param :: rest =>
      let type_ : PRes TypesCheck :=
        match arg with
        | Token.Ident name =>
          match expr_check vars consts (.Ident name) with
          | .ok t => .ok t
          | .error e => .err e
        | Token.NumberValue _ => .ok .Number
        | Token.FloatValue _ => .ok .Float
        | Token.StringValue _ => .ok .String
        | Token.BooleanValue _ => .ok .Boolean
        | _ => .panics
      match type_ with
      | .ok t =>
        if t ≠ param.2 then .err errors.A42
        else proc_call_args_check vars consts args rest
      | .err e => .err e
      | .panics => .panics
      | .fuel => .fuel

mutual

/-- `main_check` (`validator.rs` lines 53–228): checks one statement
against the procedure's variable table `vars` (returned updated, since the
Rust function mutates it through `&mut`).  Fuel-indexed for the
recursion into nested statement lists. -/
def main_check : Nat → ProcTable → VarTable → ConstTable → AstKind →
    PRes VarTable
  | 0, _, _, _, _ => .fuel
  | fuel + 1, procs, vars, consts, node =>
    match node with
    | .Delete name =>
      match removeA vars name with
      | (some (_, is_const), vars') =>
        if is_const then .err errors.A28 else .ok vars'
      | (none, _) => .err errors.A03
    | .VarDecl name type_ value is_const =>
      match expr_check vars consts value with
      | .error e => .err e
      | .ok real_type =>
        if type_ = real_type then
          match insertA vars name (type_, is_const) with
          | (some _, _) => .err errors.A07
          | (none, vars') => .ok vars'
        else .err errors.A43
    | .Assign name op expr =>
      match lookupA vars name with
      | some (type_, is_const) =>
        if ¬is_const then
          match expr_check vars consts expr with
          | .error e => .err e
          | .ok value =>
            match op with
            | Token.Assign =>
              if type_ ≠ value then .err errors.A43 else .ok vars
            | Token.PlusAssign =>
              match type_, value with
              | .String, .String => .ok vars
              | .Number, .Number => .ok vars
              | .Float, .Float => .ok vars
              | _, _ => .err errors.A16
            | Token.MinusAssign =>
              match type_, value with
              | .Number, .Number => .ok vars
              | .Float, .Float => .ok vars
              | _, _ => .err errors.A16
            | Token.MultiplyAssign =>
              match type_, value with
              | .String, .Number => .ok vars
              | .Number, .Number => .ok vars
              | .Float, .Float => .ok vars
              | _, _ => .err errors.A16
            | Token.DivideAssign =>
              match type_, value with
              | .Number, .Number => .ok vars
              | .Float, .Float => .ok vars
              | _, _ => .err errors.A16
            | Token.ModAssign =>
              match type_, value with
              | .Number, .Number => .ok vars
              | _, _ => .err errors.A16
            | _ => .panics
        else .err errors.A07
      | none => .err errors.A03
    | .ProcCall name args =>
      match lookupA procs name with
      | some proc =>
        if args.length ≠ proc.length then .err errors.A27
        else
          match proc_call_args_check vars consts args proc with
          | .ok _ => .ok vars
          | .err e => .err e
          | .panics => .panics
          | .fuel => .fuel
      | none => .err errors.A24
    | .Condition expr yes no =>
      match expr_check vars consts expr with
      | .error e => .err e
      | .ok t =>
        if t = TypesCheck.Boolean then
          match main_check_list fuel procs vars consts yes with
          | .ok vars' =>
            match no with
            | some (.ElseIf node) =>
              main_check fuel procs vars' consts node.kind
            | some (.Else nodes) =>
              main_check_list fuel procs vars' consts nodes
            | none => .ok vars'
          | r => r
        else .err errors.A15
    | .While expr body =>
      match expr_check vars consts expr with
      | .error e => .err e
      | .ok t =>
        if t = TypesCheck.Boolean then
          main_check_list fuel procs vars consts body
        else .err errors.A15
    | .For _ start stop step body =>
      match expr_check vars consts start with
      | .error e => .err e
      | .ok tstart =>
        if ¬(tstart = TypesCheck.Float ∨ tstart = TypesCheck.Number) then
          .err errors.A15
        else
          match expr_check vars consts stop with
          | .error e => .err e
          | .ok tstop =>
            if ¬(tstop = TypesCheck.Float ∨ tstop = TypesCheck.Number) then
              .err errors.A15
            else
              match step with
              | some stepk =>
                match expr_check vars consts stepk with
                | .error e => .err e
                | .ok tstep =>
                  if ¬(tstep = TypesCheck.Float ∨ tstep = TypesCheck.Number)
                  then .err errors.A15
                  else main_check_list fuel procs vars consts body
              | none => main_check_list fuel procs vars consts body
    | _ => .ok vars

/-- The statement-list fold of `main_check` over a block (`for node in
…` loops in `validator.rs`), threading the mutable variable table. -/
def main_check_list : Nat → ProcTable → VarTable → ConstTable →
    List AstNode → PRes VarTable
  | 0, _, _, _, _ => .fuel
  | _, _, vars, _, [] => .ok vars
  | fuel + 1, procs, vars, consts, node :: nodes =>
    match main_check fuel procs vars consts node.kind with
    | .ok vars' => main_check_list fuel procs vars' consts nodes
    | r => r

end

/-- Pass 1 of `check_types` (`validator.rs` lines 19–25): collect the
procedure table; a duplicate procedure name aborts with `A38`. -/
def collect_procs : List AstNode → ProcTable → PRes ProcTable
  | [], procs => .ok procs
  | node :: nodes, procs =>
    match node.kind with
    | .Proc name _ args =>
      match insertA procs name args with
      | (some _, _) => .err errors.A38
      | (none, procs') => collect_procs nodes procs'
    | _ => collect_procs nodes procs

/-- Pass 2 of `check_types` (`validator.rs` lines 27–50): accumulate
top-level constants (`A37` on duplicates) and check each procedure
body against a table seeded with its parameters. -/
def check_pass2 (fuel : Nat) (procs : ProcTable) :
    List AstNode → ConstTable → PRes Unit
  | [], _ => .ok ()
  | node :: nodes, consts =>
    match node.kind with
    | .VarDecl name type_ _ _ =>
      match insertA consts name type_ with
      | (some _, _) => .err errors.A37
      | (none, consts') => check_pass2 fuel procs nodes consts'
    | .Proc _ body args =>
      let vars : VarTable :=
        args.foldl (fun vars arg => (insertA vars arg.1 (arg.2, false)).2) []
      match main_check_list fuel procs vars consts body with
      | .ok _ => check_pass2 fuel procs nodes consts
      | .err e => .err e
      | .panics => .panics
      | .fuel => .fuel
    | _ => .panics

/-- `check_types` (`validator.rs` lines 15–51): the whole validator.
Neither pass looks for a procedure named `main`. -/
def check_types (fuel : Nat) (ast : List AstNode) : PRes Unit :=
  match collect_procs ast [] with
  | .ok procs => check_pass2 fuel procs ast []
  | .err e => .err e
  | .panics => .panics
  | .fuel => .fuel


/-! ## Bytecode compiler — `src/interpreter/src/bytecode.rs` -/

/-- `Instruction` (`bytecode.rs` lines 28–63). -/
inductive Instruction : Type where
  | StoreConst (name : String)
  | StoreLocal (name : String)
  | Push (value : Types)
  | Load (name : String)
  | Neg | Not
  | Or | And
  | Equal | NotEqual | Greater | Less | GreaterEqual | LessEqual
  | Plus | Minus | Multiply | Divide | Mod
  | CastToString | CastToFloat | CastToNumber | CastToBoolean
  | Sin | Cos | Sqrt
  | Echo
  | Exit (code : Int)
  | Delete (name : String)
  | Call (name : String) (argc : Nat)
  | Jump (target : Nat)
  | JumpIfFalse (target : Nat)

/-- `Node` (`bytecode.rs` lines 15–19): an instruction with the source
line it came from. -/
structure Node : Type where
  instruction : Instruction
  line_number : Nat

/-- `Proc` (`bytecode.rs` lines 21–25): a compiled procedure. -/
structure Proc : Type where
  args : List (String × TypesCheck)
  body : List Node

/-- `expr_compile` (`bytecode.rs` lines 238–312): append the RPN code
of an expression to `instructions` — a binary operator compiles `right`
then `left` then the operation; `unreachable!` arms panic. -/
def expr_compile : AstKind → List Instruction → PRes (List Instruction)
  | .UnaryOp op expr, instructions => do
    let instructions' ← expr_compile expr instructions
    match op with
    | Token.Not => .ok (instructions' ++ [Instruction.Not])
    | Token.Minus => .ok (instructions' ++ [Instruction.Neg])
    | _ => .err errors.A15
  | .AsOp expr op, instructions => do
    let instructions' ← expr_compile expr instructions
    match op with
    | Cast.String => .ok (instructions' ++ [Instruction.CastToString])
    | Cast.Number => .ok (instructions' ++ [Instruction.CastToNumber])
    | Cast.Float => .ok (instructions' ++ [Instruction.CastToFloat])
    | Cast.Boolean => .ok (instructions' ++ [Instruction.CastToBoolean])
    | Cast.Sqrt => .ok (instructions' ++ [Instruction.Sqrt])
    | Cast.Sin => .ok (instructions' ++ [Instruction.Sin])
    | Cast.Cos => .ok (instructions' ++ [Instruction.Cos])
  | .BinaryOp left op right, instructions => do
    let i₁ ← expr_compile right instructions
    let i₂ ← expr_compile left i₁
    match op with
    | Token.Or => .ok (i₂ ++ [Instruction.Or])
    | Token.And => .ok (i₂ ++ [Instruction.And])
    | Token.Equal => .ok (i₂ ++ [Instruction.Equal])
    | Token.NotEqual => .ok (i₂ ++ [Instruction.NotEqual])
    | Token.Greater => .ok (i₂ ++ [Instruction.Greater])
    | Token.Less => .ok (i₂ ++ [Instruction.Less])
    | Token.GreaterEqual => .ok (i₂ ++ [Instruction.GreaterEqual])
    | Token.LessEqual => .ok (i₂ ++ [Instruction.LessEqual])
    | Token.Plus => .ok (i₂ ++ [Instruction.Plus])
    | Token.Minus => .ok (i₂ ++ [Instruction.Minus])
    | Token.Multiply => .ok (i₂ ++ [Instruction.Multiply])
    | Token.Divide => .ok (i₂ ++ [Instruction.Divide])
    | Token.Mod => .ok (i₂ ++ [Instruction.Mod])
    | _ => .panics
  | .Ident name, instructions => .ok (instructions ++ [Instruction.Load name])
  | .Number value, instructions =>
    .ok (instructions ++ [Instruction.Push (Types.Number value)])
  | .Float value, instructions =>
    .ok (instructions ++ [Instruction.Push (Types.Float value)])
  | .String value, instructions =>
    .ok (instructions ++ [Instruction.Push (Types.String value)])
  | .Boolean value, instructions =>
    .ok (instructions ++ [Instruction.Push (Types.Boolean value)])
  | _, _ => .panics

/-- `var_compile` (`bytecode.rs` lines 314–325): expression code
followed by `StoreConst` / `StoreLocal`. -/
def var_compile (name : String) (value : AstKind) (is_const : Bool) :
    PRes (List Instruction) := do
  let instructions ← expr_compile value []
  if is_const then .ok (instructions ++ [Instruction.StoreConst name])
  else .ok (instructions ++ [Instruction.StoreLocal name])

/-- The argument pushes of a `ProcCall` (`bytecode.rs` lines 135–152):
arguments are emitted in reverse order; non-literal, non-identifier
tokens are `unreachable!`. -/
def proc_call_args_compile :
    List Token → List Instruction → PRes (List Instruction)
  | [], instructions => .ok instructions
  | arg :: args, instructions => do
    let instructions' ← proc_call_args_compile args instructions
    match arg with
    | Token.Ident name => .ok (instructions' ++ [Instruction.Load name])
    | Token.NumberValue value =>
      .ok (instructions' ++ [Instruction.Push (Types.Number value)])
    | Token.FloatValue value =>
      .ok (instructions' ++ [Instruction.Push (Types.Float value)])
    | Token.StringValue value =>
      .ok (instructions' ++ [Instruction.Push (Types.String value)])
    | Token.BooleanValue value =>
      .ok (instructions' ++ [Instruction.Push (Types.Boolean value)])
    | _ => .panics

mutual

/-- `main_compile` (`bytecode.rs` lines 114–208): append the code of
one statement.  In `src/`, the `Condition` and `For` arms call
`condition_compile` / `for_compile`, which are `todo!()` stubs — they
panic; the `While` arm calls `while_compile`, modelled below from the
spec. -/
def main_compile : Nat → AstKind → List Instruction →
    PRes (List Instruction)
  | 0, _, _ => .fuel
  | fuel + 1, node, instructions =>
    match node with
    | .Echo expr => do
      let instructions' ← expr_compile expr instructions
      .ok (instructions' ++ [Instruction.Echo])
    | .Delete name => .ok (instructions ++ [Instruction.Delete name])
    | .Exit code => .ok (instructions ++ [Instruction.Exit code])
    | .VarDecl name _ value is_const => do
      let code ← var_compile name value is_const
      .ok (instructions ++ code)
    | .ProcCall name args => do
      let instructions' ← proc_call_args_compile args instructions
      .ok (instructions' ++ [Instruction.Call name args.length])
    | .Assign name op expr => do
      let i₁ := instructions ++ [Instruction.Load name]
      let i₂ ← expr_compile expr i₁
      match op with
      | Token.Assign => .ok (i₂ ++ [Instruction.StoreLocal name])
      | Token.PlusAssign =>
        .ok (i₂ ++ [Instruction.Plus, Instruction.StoreLocal name])
      | Token.MinusAssign =>
        .ok (i₂ ++ [Instruction.Minus, Instruction.StoreLocal name])
      | Token.MultiplyAssign =>
        .ok (i₂ ++ [Instruction.Multiply, Instruction.StoreLocal name])
      | Token.DivideAssign =>
        .ok (i₂ ++ [Instruction.Divide, Instruction.StoreLocal name])
      | Token.ModAssign =>
        .ok (i₂ ++ [Instruction.Mod, Instruction.StoreLocal name])
      | _ => .panics
    | .Condition _ _ _ => .panics
    | .While expr body => do
      let l1 := instructions.length
      let after_cond ← expr_compile expr instructions
      let jif := after_cond.length
      let with_jif := after_cond ++ [Instruction.JumpIfFalse 0]
      let after_body ← main_compile_list fuel body with_jif
      let tape := after_body ++ [Instruction.Jump l1]
      .ok (tape.set jif (Instruction.JumpIfFalse tape.length))
    | .For _ _ _ _ _ => .panics
    | _ => .panics

/-- The statement-list fold used for a loop body: each statement's code
is appended in order (as `compile` does per body node). -/
def main_compile_list : Nat → List AstNode → List Instruction →
    PRes (List Instruction)
  | 0, _, _ => .fuel
  | _, [], instructions => .ok instructions
  | fuel + 1, node :: nodes, instructions =>
    match main_compile fuel node.kind instructions with
    | .ok instructions' => main_compile_list fuel nodes instructions'
    | r => r

end

/-- Modelled from the spec: the body of `while_compile`
(`bytecode.rs` lines 219–225) is a `todo!()` stub in `src/`; only its
signature and its caller are present.  Spec section 4.4 gives the
lowering rule — `while cond do B endwhile` becomes
`L1:` cond; `JumpIfFalse L2`; B; `Jump L1`; `L2:` — with jump addresses
absolute indices into the tape, built by emit-with-placeholder and
back-patch (spec section 9, control-flow lowering).  The body is the
same code as the `While` arm of `main_compile` (inlined there to keep
the mutual recursion structural on the fuel). -/
def while_compile (fuel : Nat) (expr : AstKind) (body : List AstNode)
    (instructions : List Instruction) : PRes (List Instruction) := do
  let l1 := instructions.length
  let after_cond ← expr_compile expr instructions
  let jif := after_cond.length
  let with_jif := after_cond ++ [Instruction.JumpIfFalse 0]
  let after_body ← main_compile_list fuel body with_jif
  let tape := after_body ++ [Instruction.Jump l1]
  .ok (tape.set jif (Instruction.JumpIfFalse tape.length))

/-- The per-procedure body loop of `compile` (`bytecode.rs` lines
86–97): each statement is compiled into a fresh vector and appended,
tagged with its line. -/
def compile_proc_body (fuel : Nat) : List AstNode → PRes (List Node)
  | [] => .ok []
  | node :: nodes =>
    match main_compile fuel node.kind [] with
    | .ok temp =>
      match compile_proc_body fuel nodes with
      | .ok rest =>
        .ok (temp.map (fun inst => Node.mk inst node.line) ++ rest)
      | r => r
    | .err e => .err e
    | .panics => .panics
    | .fuel => .fuel

/-- `compile` (`bytecode.rs` lines 65–112): build the constant
initializer tape and the procedure table; no arm looks for a
procedure named `main`. -/
def compile (fuel : Nat) :
    List AstNode → List (String × Proc) × List Node →
    PRes (List (String × Proc) × List Node)
  | [], acc => .ok acc
  | node :: nodes, (procs, const_code) =>
    match node.kind with
    | .VarDecl name _ value is_const =>
      match var_compile name value is_const with
      | .ok var =>
        compile fuel nodes
          (procs, const_code ++ var.map (fun inst => Node.mk inst node.line))
      | .err e => .err e
      | .panics => .panics
      | .fuel => .fuel
    | .Proc name body args =>
      match compile_proc_body fuel body with
      | .ok proc_body =>
        compile fuel nodes
          ((insertA procs name (Proc.mk args proc_body)).2, const_code)
      | .err e => .err e
      | .panics => .panics
      | .fuel => .fuel
    | _ => .panics


/-! ## Supporting lemmas -/

theorem RRes.bind_ok {α β : Type} (v : α) (f : α → RRes β) :
    RRes.bind (RRes.ok v) f = f v := rfl

theorem PRes.ok_bind {α β : Type} (v : α) (f : α → PRes β) :
    PRes.ok v >>= f = f v := rfl

theorem lookupA_cons_self {α : Type} (m : List (String × α)) (k : String)
    (v : α) : lookupA ((k, v) :: m) k = some v := by
  simp [lookupA, List.find?]

theorem find?_filter_out {α : Type} (l : List (String × α)) (name : String) :
    (l.filter (fun p => !(p.1 == name))).find? (fun p => p.1 == name) =
      none := by
  rw [List.find?_eq_none]
  intro x hx
  simpa using (List.mem_filter.mp hx).2

theorem any_filter_out {α : Type} (l : List (String × α)) (name : String) :
    (l.filter (fun p => !(p.1 == name))).any (fun p => p.1 == name) =
      false := by
  rw [Bool.eq_false_iff]
  intro h
  obtain ⟨x, hx, hpx⟩ := List.any_eq_true.mp h
  have := (List.mem_filter.mp hx).2
  simp_all

theorem wrap_i64_eq_of_range (m : Int) (h1 : -(2 ^ 63) ≤ m)
    (h2 : m ≤ 2 ^ 63 - 1) : wrap_i64 m = m := by
  rw [wrap_i64, Int.emod_eq_of_lt (by omega) (by omega)]
  omega

/-! ## Claim C9 — `Scope` mutation is unconditional -/

/-- C9: `Scope::declare` unconditionally inserts or overwrites the
binding for a name (whatever binding — const or not — was there
before), `Scope::remove` unconditionally removes it, and both always
succeed: const protection is not provided at this interface. -/
theorem claim9_scope (s : Scope) (name : String) (value : Types)
    (is_const : Bool) :
    (s.declare name value is_const).get_raw name = some (value, is_const)
    ∧ (s.declare name value is_const).exist name = true
    ∧ ((s.remove name).1.get_raw name = none)
    ∧ ((s.remove name).1.exist name = false)
    ∧ (s.remove name).2 = s.exist name := by
  refine ⟨?_, ?_, ?_, ?_, rfl⟩
  · simp [Scope.declare, Scope.get_raw, List.find?]
  · simp [Scope.declare, Scope.exist]
  · simp [Scope.remove, Scope.get_raw, find?_filter_out]
  · simp [Scope.remove, Scope.exist, any_filter_out]

/-! ## Claim C10 — `parse_value` panics on a literal followed by a comma -/

/-- C10: the token line of the lexable source text `1, 2` (a literal
followed by a top-level comma, as in an `echo` argument) drives
`Parser::parse_value` into the commented-out vector construction's
`todo!()`: it panics instead of returning `Ok` or `Err`, so the parser
is not total over lexer-accepted token lines. -/
theorem claim10_parse_value_panics :
    parse_value 16 ⟨[.NumberValue 1, .Comma, .NumberValue 2], 0⟩ = .panics
    ∧ tokenize_line "1, 2" =
      .ok [.Value (.Number 1), .Comma, .Value (.Number 2)] :=
  ⟨rfl, rfl⟩

/-! ## Claim C8 — `Multiply` semantics -/

/-- C8 counterexample: at `2^62 * 4` the `i64` product of two `Number`
operands wraps to `0` (release build; a debug build aborts) — the
numeric product `2^64` is out of the `i64` range, so multiplying two
`Number`s does not always yield their numeric product as the claim
states. -/
theorem claim8_counterexample :
    Types.mul (.Number (2 ^ 62)) (.Number 4) = .ok (.Number 0)
    ∧ (2 ^ 62 * 4 : Int) = 2 ^ 64
    ∧ (2 ^ 64 : Int) ≠ 0 := by
  refine ⟨?_, by norm_num, by norm_num⟩
  simp only [Types.mul, Types.as_number]
  norm_num
  decide

/-- C8 as amended: `Types::mul` — a `String` times a `Number n` (in
either operand order) is the string repeated `n` times, the empty
string for `n ≤ 0`; `Number` times `Number` is the 64-bit
two's-complement product, equal to the numeric product exactly when
that product lies in the `i64` range; `Float` times `Float` is the
binary64 product, which equals the exact numeric product whenever that
exact product is representable in binary64 — the only domain on which
the exact-rational float model settles it. -/
theorem claim8_multiply (s : String) (n a b : Int) (x y : ℚ) :
    Types.mul (.String s) (.Number n) =
      .ok (.String (str_repeat s n.toNat))
    ∧ Types.mul (.Number n) (.String s) =
      .ok (.String (str_repeat s n.toNat))
    ∧ (n ≤ 0 → Types.mul (.String s) (.Number n) = .ok (.String ""))
    ∧ Types.mul (.Number a) (.Number b) =
      .ok (.Number (wrap_i64 (a * b)))
    ∧ (-(2 ^ 63) ≤ a * b → a * b ≤ 2 ^ 63 - 1 →
        Types.mul (.Number a) (.Number b) = .ok (.Number (a * b)))
    ∧ (is_f64 x → is_f64 y → is_f64 (x * y) →
        Types.mul (.Float x) (.Float y) = .ok (.Float (x * y))) := by
  refine ⟨rfl, rfl, ?_, rfl, ?_, fun _ _ _ => rfl⟩
  · intro h
    simp [Types.mul, Types.as_number, Int.toNat_of_nonpos h, str_repeat]
  · intro h1 h2
    rw [show Types.mul (.Number a) (.Number b) =
        .ok (.Number (wrap_i64 (a * b))) from rfl,
      wrap_i64_eq_of_range (a * b) h1 h2]

/-- Witness for C8: the repetition conjunct at `n = -2 ≤ 0`, the
in-range product at `2 * 3`, and the float product at the exactly
representable `2 * 3`. -/
theorem claim8_multiply_witness :
    Types.mul (.String "ab") (.Number (-2)) = .ok (.String "")
    ∧ Types.mul (.Number 2) (.Number 3) = .ok (.Number (2 * 3))
    ∧ Types.mul (.Float 2) (.Float 3) = .ok (.Float (2 * 3)) :=
  ⟨(claim8_multiply "ab" (-2) 0 0 0 0).2.2.1 (by decide),
    (claim8_multiply "ab" 0 2 3 0 0).2.2.2.2.1 (by decide) (by decide),
    (claim8_multiply "ab" 0 0 0 2 3).2.2.2.2.2 ⟨2, 0, by norm_num⟩
      ⟨3, 0, by norm_num⟩ ⟨6, 0, by norm_num⟩⟩

/-! ## Claim C1 — `CastToBoolean` semantics -/

/-- C1 counterexample: `convert_to_bool` panics on the string `"abc"`
(the claim says error `A35` — no such error constant even exists in
`errors.rs`), and maps `Number 2` and `Float 2.0` to `true` (the claim
says `true` exactly for `1` / `1.0`). -/
theorem claim1_counterexample :
    Types.convert_to_bool (.String "abc") = .panics
    ∧ Types.convert_to_bool (.Number 2) = .ok (.Boolean true, none)
    ∧ Types.convert_to_bool (.Float 2) = .ok (.Boolean true, none) :=
  ⟨rfl, rfl, rfl⟩

/-- C1 as amended: a `String` operand equal to `"true"`/`"false"`
becomes the boolean; any other string panics (`unwrap` on Rust's `bool`
parser), it is not a recoverable error; a `Number` converts to `true`
exactly when it is nonzero, and a `Float` converts to `true` exactly
when it is nonzero. -/
theorem claim1_cast_to_boolean (s : String) (n : Int) (q : ℚ) :
    Types.convert_to_bool (.String s) =
      (if s = "true" then .ok (.Boolean true, none)
       else if s = "false" then .ok (.Boolean false, none)
       else .panics)
    ∧ Types.convert_to_bool (.Number n) = .ok (.Boolean (n ≠ 0), none)
    ∧ Types.convert_to_bool (.Float q) = .ok (.Boolean (q ≠ 0), none) :=
  ⟨rfl, rfl, rfl⟩

/-! ## Claim C3 — `CastToNumber` semantics -/

/-- C3 counterexample: `convert_to_number` on `Float 1.5` yields
`Number 2` — the float is rounded (`f64::round`, ties away from zero),
while truncation (the claim) would give `1 ≠ 2`. -/
theorem claim3_counterexample :
    Types.convert_to_number (.Float (3 / 2)) = .ok (.Number 2, none)
    ∧ ⌊(3 / 2 : ℚ)⌋ = 1
    ∧ (2 : Int) ≠ 1 := by
  have hround : round_away (3 / 2 : ℚ) = 2 := by
    rw [round_away, if_pos (by norm_num)]
    rw [show (3 / 2 : ℚ) + 1 / 2 = 2 by norm_num]
    exact_mod_cast Int.floor_intCast (α := ℚ) 2
  have hsat : sat_i64 2 = 2 := by rw [sat_i64]; norm_num
  have h1 : Types.convert_to_number (.Float (3 / 2)) =
      .ok (.Number 2, none) := by
    simp [Types.convert_to_number, hround, hsat]
  have h2 : ⌊(3 / 2 : ℚ)⌋ = 1 := by
    rw [Int.floor_eq_iff]
    norm_num
  exact ⟨h1, h2, by decide⟩

/-- C3 as amended: a `String` is parsed as `i64` with error `A02` on
failure; a `Boolean` becomes `1`/`0`; a `Float` is rounded to the
nearest integer (ties away from zero) and saturated to the `i64`
range — it is not truncated. -/
theorem claim3_cast_to_number (s : String) (b : Bool) (q : ℚ) :
    Types.convert_to_number (.String s) =
      (match parse_i64 s with
       | some val => .ok (.Number val, none)
       | none => .err errors.A02)
    ∧ Types.convert_to_number (.Boolean b) =
      .ok (.Number (if b then 1 else 0), none)
    ∧ Types.convert_to_number (.Float q) =
      .ok (.Number (sat_i64 (round_away q)), none) :=
  ⟨rfl, rfl, rfl⟩

/-! ## Claim C4 — locals may shadow constants -/

/-- C4 counterexample: with `"c"` bound as a top-level constant,
`main_check` accepts (returns `Ok`) the local declaration
`number c = 1` — the claim says the validator rejects it. -/
theorem claim4_counterexample :
    main_check 1 [] [] [("c", TypesCheck.Number)]
        (.VarDecl "c" .Number (.Number 1) false) =
      .ok [("c", (.Number, false))]
    ∧ lookupA [("c", TypesCheck.Number)] "c" = some TypesCheck.Number :=
  ⟨rfl, rfl⟩

/-- C4 as amended: the `VarDecl` arm of `main_check` consults only the
procedure-local table (rejecting only a local re-declaration, `A07`);
a name bound as a top-level constant and not yet a local is accepted,
and the new local then shadows the constant in expression lookup
(`expr_check` resolves locals first). -/
theorem claim4_shadowing_allowed (fuel : Nat) (procs : ProcTable)
    (vars : VarTable) (consts : ConstTable) (name : String)
    (t' : TypesCheck) (k : Int) (is_const : Bool)
    (_hconst : lookupA consts name = some t')
    (hlocal : lookupA vars name = none) :
    main_check (fuel + 1) procs vars consts
        (.VarDecl name .Number (.Number k) is_const) =
      .ok ((name, (TypesCheck.Number, is_const)) ::
        vars.filter (fun p => !(p.1 == name)))
    ∧ expr_check ((name, (TypesCheck.Number, is_const)) ::
        vars.filter (fun p => !(p.1 == name))) consts (.Ident name) =
      .ok .Number := by
  constructor
  · simp [main_check, expr_check, insertA, hlocal]
  · simp [expr_check, lookupA_cons_self]

/-- Witness for C4: the concrete instance of `claim4_counterexample`
obtained through the general theorem. -/
theorem claim4_shadowing_allowed_witness :
    main_check 1 [] [] [("c", TypesCheck.Number)]
        (.VarDecl "c" .Number (.Number 1) false) =
      .ok [("c", (TypesCheck.Number, false))]
    ∧ expr_check [("c", (TypesCheck.Number, false))]
        [("c", TypesCheck.Number)] (.Ident "c") = .ok .Number := by
  have h := claim4_shadowing_allowed 0 [] [] [("c", TypesCheck.Number)]
    "c" TypesCheck.Number 1 false rfl rfl
  simpa using h

/-! ## Claim C5 — no `main` requirement in the static pipeline -/

/-- C5 counterexample: a program whose only procedure is `foo` (no
`main` at all) passes `check_types` and `compile`; so does a `main`
declared with a parameter.  Neither stage raises `A22`. -/
theorem claim5_counterexample :
    check_types 1 [.mk 0 (.Proc "foo" [] [])] = .ok ()
    ∧ compile 1 [.mk 0 (.Proc "foo" [] [])] ([], []) =
      .ok ([("foo", Proc.mk [] [])], [])
    ∧ check_types 1 [.mk 0 (.Proc "main" [] [("x", TypesCheck.Number)])] =
      .ok ()
    ∧ "foo" ≠ "main" :=
  ⟨rfl, rfl, rfl, by decide⟩

/-- C5 as amended: the static pipeline does not enforce the existence
of a zero-parameter `main`: for every procedure name, a program whose
single item is an empty procedure of that name passes `check_types`
and `compile` (the error `A22` is defined in `errors.rs` but never
raised by any code under `src/`; spec section 4.5 defers the `main`
lookup to the VM entry, which is absent from the sources). -/
theorem claim5_no_main_check (fuel : Nat) (name : String) (line : Nat) :
    check_types (fuel + 1) [.mk line (.Proc name [] [])] = .ok ()
    ∧ compile fuel [.mk line (.Proc name [] [])] ([], []) =
      .ok ([(name, Proc.mk [] [])], []) :=
  ⟨rfl, rfl⟩


/-! ## Claim C2 — `while` lowering shape -/

theorem set_append_add {α : Type} (l₁ l₂ : List α) (n : Nat) (a : α) :
    (l₁ ++ l₂).set (l₁.length + n) a = l₁ ++ l₂.set n a := by
  induction l₁ with
  | nil => simp
  | cons h t ih =>
    have : t.length + 1 + n = (t.length + n) + 1 := by omega
    simp only [List.cons_append, List.length_cons, this, List.set]
    rw [ih]

/-- C2: the `while cond … endwhile` lowering produces exactly the tape
shape `L1:` cond; `JumpIfFalse L2`; body; `Jump L1`; `L2:` — given that
the condition compiles to the segment `cond` and the body (compiled at
its actual position) appends the segment `bcode`, the emitted code is
the condition first, a conditional jump whose target is the index one
past the backward jump, the body, and an unconditional jump back to
the start of the condition. -/
theorem claim2_while_lowering (fuel : Nat) (expr : AstKind)
    (body : List AstNode) (inst cond bcode : List Instruction)
    (hc : expr_compile expr inst = .ok (inst ++ cond))
    (hb : main_compile_list fuel body (inst ++ cond ++ [.JumpIfFalse 0]) =
      .ok (inst ++ cond ++ [.JumpIfFalse 0] ++ bcode)) :
    while_compile fuel expr body inst =
      .ok (inst ++ cond ++
        [.JumpIfFalse (inst.length + cond.length + bcode.length + 2)] ++
        bcode ++ [.Jump inst.length])
    ∧ (inst ++ cond ++
        [Instruction.JumpIfFalse
          (inst.length + cond.length + bcode.length + 2)] ++
        bcode ++ [Instruction.Jump inst.length]).length =
      inst.length + cond.length + bcode.length + 2 := by
  constructor
  · unfold while_compile
    rw [hc]
    simp only [PRes.ok_bind, List.append_assoc] at hb ⊢
    rw [hb]
    simp only [PRes.ok_bind]
    have hlen : ((inst ++ (cond ++ ([Instruction.JumpIfFalse 0] ++ bcode))) ++
        [Instruction.Jump inst.length]).length =
        inst.length + cond.length + bcode.length + 2 := by
      simp [List.length_append]
      omega
    rw [hlen]
    have hset : ((inst ++ (cond ++ ([Instruction.JumpIfFalse 0] ++ bcode))) ++
        [Instruction.Jump inst.length]).set ((inst ++ cond).length)
          (Instruction.JumpIfFalse
            (inst.length + cond.length + bcode.length + 2)) =
        inst ++ (cond ++
          ([Instruction.JumpIfFalse
              (inst.length + cond.length + bcode.length + 2)] ++
            (bcode ++ [Instruction.Jump inst.length]))) := by
      simp only [List.append_assoc, List.singleton_append, List.cons_append,
        List.length_append]
      rw [show inst.length + cond.length = inst.length + (cond.length + 0)
        by omega]
      rw [set_append_add inst]
      rw [set_append_add cond]
      rfl
    simp only [List.append_assoc, List.length_append] at hset ⊢
    rw [hset]
  · simp [List.length_append]
    omega

/-- Witness for C2: lowering `while true … echo 1 … endwhile` at the
start of an empty tape. -/
theorem claim2_while_lowering_witness :
    while_compile 4 (.Boolean true) [.mk 1 (.Echo (.Number 1))] [] =
      .ok [.Push (.Boolean true), .JumpIfFalse 5, .Push (.Number 1),
        .Echo, .Jump 0] := by
  have h := claim2_while_lowering 4 (.Boolean true)
    [.mk 1 (.Echo (.Number 1))] [] [.Push (.Boolean true)]
    [.Push (.Number 1), .Echo] rfl rfl
  simpa using h.1


/-! ## Claim C6 — operator associativity and binding strength -/

theorem precedence_cases (tok : Token) (p : Nat)
    (h : precedence tok = some p) :
    (p = 1 ∧ tok ∈ [Token.Or]) ∨
    (p = 2 ∧ tok ∈ [Token.And]) ∨
    (p = 3 ∧ tok ∈ [Token.Equal, Token.NotEqual, Token.Greater, Token.Less,
      Token.GreaterEqual, Token.LessEqual]) ∨
    (p = 4 ∧ tok ∈ [Token.Plus, Token.Minus]) ∨
    (p = 5 ∧ tok ∈ [Token.Multiply, Token.Divide, Token.Mod]) ∨
    (p = 7 ∧ tok ∈ [Token.As]) := by
  cases tok <;> simp_all [precedence]

/-- C6 counterexample: parsing `- 1 as number` yields
`UnaryOp - (AsOp (Number 1) number)` — `as` binds tighter than the
unary operator, not the other way round as the claim states. -/
theorem claim6_counterexample :
    parse_expr 16 0 ⟨[.Minus, .NumberValue 1, .As, .Ident "number"], 0⟩ =
      .ok (.UnaryOp .Minus (.AsOp (.Number 1) .Number),
        ⟨[.Minus, .NumberValue 1, .As, .Ident "number"], 4⟩)
    ∧ AstKind.UnaryOp .Minus (.AsOp (.Number 1) .Number) ≠
      AstKind.AsOp (.UnaryOp .Minus (.Number 1)) .Number := by
  refine ⟨rfl, fun h => ?_⟩
  cases h

/-- C6 as amended: every binary operator is left-associative (two
operators of equal precedence fold to the left, and chained `as` casts
fold to the left), and the unary operators `-` and `not` bind tighter
than every binary operator except `as`: the operand of a unary
operator is parsed at level 6, so a following `as` (level 7) is
consumed into the operand, and `- e as T` parses as `-(e as T)`. -/
theorem claim6_precedence (n1 n2 n3 : Int) (op1 op2 u : Token) (p : Nat) :
    ((precedence op1 = some p ∧ precedence op2 = some p ∧ p ≠ 7) →
      parse_expr 16 0
          ⟨[.NumberValue n1, op1, .NumberValue n2, op2, .NumberValue n3],
            0⟩ =
        .ok (.BinaryOp (.BinaryOp (.Number n1) op1 (.Number n2)) op2
            (.Number n3),
          ⟨[.NumberValue n1, op1, .NumberValue n2, op2, .NumberValue n3],
            5⟩))
    ∧ parse_expr 16 0
          ⟨[.NumberValue n1, .As, .Ident "number", .As, .Ident "float"],
            0⟩ =
        .ok (.AsOp (.AsOp (.Number n1) .Number) .Float,
          ⟨[.NumberValue n1, .As, .Ident "number", .As, .Ident "float"],
            5⟩)
    ∧ ((u = .Minus ∨ u = .Not) → (precedence op1 = some p ∧ p ≠ 7) →
      parse_expr 16 0 ⟨[u, .NumberValue n1, op1, .NumberValue n2], 0⟩ =
        .ok (.BinaryOp (.UnaryOp u (.Number n1)) op1 (.Number n2),
          ⟨[u, .NumberValue n1, op1, .NumberValue n2], 4⟩))
    ∧ ((u = .Minus ∨ u = .Not) →
      parse_expr 16 0 ⟨[u, .NumberValue n1, .As, .Ident "number"], 0⟩ =
        .ok (.UnaryOp u (.AsOp (.Number n1) .Number),
          ⟨[u, .NumberValue n1, .As, .Ident "number"], 4⟩)) := by
  refine ⟨?_, rfl, ?_, ?_⟩
  · rintro ⟨h1, h2, hp⟩
    rcases precedence_cases op1 p h1 with
        ⟨rfl, m1⟩ | ⟨rfl, m1⟩ | ⟨rfl, m1⟩ | ⟨rfl, m1⟩ | ⟨rfl, m1⟩ |
        ⟨rfl, m1⟩ <;>
      rcases precedence_cases op2 _ h2 with
        ⟨e2, m2⟩ | ⟨e2, m2⟩ | ⟨e2, m2⟩ | ⟨e2, m2⟩ | ⟨e2, m2⟩ | ⟨e2, m2⟩ <;>
      first
        | omega
        | (fin_cases m1 <;> fin_cases m2 <;> rfl)
  · rintro (rfl | rfl) ⟨h1, hp⟩ <;>
      rcases precedence_cases op1 p h1 with
        ⟨rfl, m1⟩ | ⟨rfl, m1⟩ | ⟨rfl, m1⟩ | ⟨rfl, m1⟩ | ⟨rfl, m1⟩ |
        ⟨rfl, m1⟩ <;>
      first
        | omega
        | (fin_cases m1 <;> rfl)
  · rintro (rfl | rfl) <;> rfl

/-- Witness for C6 at `1 + 2 - 3`, `- 1 * 2`, and `- 1 as number`. -/
theorem claim6_precedence_witness :
    parse_expr 16 0
        ⟨[.NumberValue 1, .Plus, .NumberValue 2, .Minus, .NumberValue 3],
          0⟩ =
      .ok (.BinaryOp (.BinaryOp (.Number 1) .Plus (.Number 2)) .Minus
          (.Number 3),
        ⟨[.NumberValue 1, .Plus, .NumberValue 2, .Minus, .NumberValue 3],
          5⟩)
    ∧ parse_expr 16 0
        ⟨[.Minus, .NumberValue 1, .Multiply, .NumberValue 2], 0⟩ =
      .ok (.BinaryOp (.UnaryOp .Minus (.Number 1)) .Multiply (.Number 2),
        ⟨[.Minus, .NumberValue 1, .Multiply, .NumberValue 2], 4⟩)
    ∧ parse_expr 16 0
        ⟨[.Minus, .NumberValue 1, .As, .Ident "number"], 0⟩ =
      .ok (.UnaryOp .Minus (.AsOp (.Number 1) .Number),
        ⟨[.Minus, .NumberValue 1, .As, .Ident "number"], 4⟩) := by
  refine ⟨?_, ?_, ?_⟩
  · exact (claim6_precedence 1 2 3 .Plus .Minus .Minus 4).1
      ⟨rfl, rfl, by decide⟩
  · exact (claim6_precedence 1 2 0 .Multiply .Plus .Minus 5).2.2.1
      (Or.inl rfl) ⟨rfl, by decide⟩
  · exact (claim6_precedence 1 0 0 .Plus .Plus .Minus 4).2.2.2
      (Or.inl rfl)


/-! ## Claim C7 — digit-initiated tokens -/


theorem dropWhile_head_false {α : Type} (p : α → Bool) (l : List α)
    (c : α) (cs : List α) (h : l.dropWhile p = c :: cs) : p c = false := by
  induction l with
  | nil => simp [List.dropWhile] at h
  | cons a t ih =>
    by_cases hp : p a
    · exact ih (by simpa [List.dropWhile, hp] using h)
    · rw [List.dropWhile_cons_of_neg hp] at h
      cases h
      simpa using hp

theorem strip_sign_digit (c : Char) (cs : List Char)
    (hc : c.isDigit = true) : strip_sign (c :: cs) = (false, c :: cs) := by
  have h1 : ¬(c = '+') := fun h => by subst h; simp at hc
  have h2 : ¬(c = '-') := fun h => by subst h; simp at hc
  simp [strip_sign, h1, h2]

theorem mem_of_dropWhile_cons {α : Type} (p : α → Bool) (l : List α)
    (c : α) (cs : List α) (h : l.dropWhile p = c :: cs) (x : α)
    (hx : x ∈ c :: cs) : x ∈ l :=
  (List.dropWhile_suffix p).sublist.subset (h ▸ hx)

theorem parse_i64_none_of_dot (s : String) (c : Char) (cs : List Char)
    (hdata : s.data = c :: cs) (hc : c.isDigit = true)
    (hdot : '.' ∈ s.data) : parse_i64 s = none := by
  rw [parse_i64, hdata, strip_sign_digit c cs hc]
  have : (c :: cs).all Char.isDigit = false := by
    rw [Bool.eq_false_iff]
    intro hall
    have := List.all_eq_true.mp hall '.' (hdata ▸ hdot)
    simp at this
  simp [digitsVal, this]


theorem parse_f64_all_digits (s : String) (c : Char) (cs : List Char)
    (hdata : s.data = c :: cs) (hc : c.isDigit = true)
    (hall : ∀ x ∈ c :: cs, x.isDigit = true) :
    ∃ q, parse_f64 s = some q := by
  rw [parse_f64, hdata, strip_sign_digit c cs hc]
  have htake : (c :: cs).takeWhile Char.isDigit = c :: cs :=
    List.takeWhile_eq_self_iff.mpr hall
  have hdrop : (c :: cs).dropWhile Char.isDigit = [] :=
    List.dropWhile_eq_nil_iff.mpr hall
  simp [htake, hdrop, parse_f64_exp]

theorem parse_f64_one_dot (s : String) (c : Char) (cs r₂ : List Char)
    (hdata : s.data = c :: cs) (hc : c.isDigit = true)
    (hdrop : (c :: cs).dropWhile Char.isDigit = '.' :: r₂)
    (hr₂ : ∀ x ∈ r₂, x.isDigit = true) :
    ∃ q, parse_f64 s = some q := by
  rw [parse_f64, hdata, strip_sign_digit c cs hc]
  have htk : (c :: cs).takeWhile Char.isDigit =
      c :: cs.takeWhile Char.isDigit := by
    simp [List.takeWhile_cons_of_pos, hc]
  have htake2 : r₂.takeWhile Char.isDigit = r₂ :=
    List.takeWhile_eq_self_iff.mpr hr₂
  have hdrop2 : r₂.dropWhile Char.isDigit = [] :=
    List.dropWhile_eq_nil_iff.mpr hr₂
  simp [hdrop, htk, htake2, hdrop2, parse_f64_exp]

theorem parse_f64_none_two_dots (s : String) (c : Char)
    (cs r₂ r₄ : List Char)
    (hdata : s.data = c :: cs) (hc : c.isDigit = true)
    (hdrop : (c :: cs).dropWhile Char.isDigit = '.' :: r₂)
    (hdrop2 : r₂.dropWhile Char.isDigit = '.' :: r₄) :
    parse_f64 s = none := by
  rw [parse_f64, hdata, strip_sign_digit c cs hc]
  simp [hdrop, hdrop2, parse_f64_exp]


theorem string_mk_data (s : String) : String.mk s.data = s := by
  cases s
  rfl

theorem tokenize_line_digit_run (s : String) (c : Char) (cs : List Char)
    (hdata : s.data = c :: cs) (hc : c.isDigit = true)
    (hnum : ∀ x ∈ c :: cs, is_num_char x = true) :
    tokenize_line s = .ok [.Value (Types.create s)] := by
  have hne : ∀ x : Char, x.isDigit = false → ¬(c = x) := by
    intro x hx hcx
    rw [hcx, hx] at hc
    cases hc
  have htake : (c :: cs).takeWhile is_num_char = c :: cs :=
    List.takeWhile_eq_self_iff.mpr hnum
  rw [tokenize_line, hdata]
  simp only [List.length_cons]
  rw [tokenize_go]
  simp only [List.get?]
  rw [if_neg (show ¬(c = ' ' ∨ c = '\t') from fun h =>
    h.elim (hne ' ' (by decide)) (hne '\t' (by decide)))]
  rw [if_neg (hne '(' (by decide))]
  rw [if_neg (hne ')' (by decide))]
  rw [if_neg (hne '[' (by decide))]
  rw [if_neg (hne ']' (by decide))]
  rw [if_neg (hne '\x7b' (by decide))]
  rw [if_neg (hne '\x7d' (by decide))]
  rw [if_neg (hne ',' (by decide))]
  rw [if_neg (hne '+' (by decide))]
  rw [if_neg (hne '-' (by decide))]
  rw [if_neg (hne '/' (by decide))]
  rw [if_neg (hne '%' (by decide))]
  rw [if_neg (hne '=' (by decide))]
  rw [if_neg (hne '>' (by decide))]
  rw [if_neg (hne '<' (by decide))]
  rw [if_neg (hne '*' (by decide))]
  rw [if_neg (hne '!' (by decide))]
  rw [if_neg (hne '"' (by decide))]
  rw [if_pos hc]
  simp only [List.drop_zero, htake, List.length_cons, Nat.zero_add]
  rw [tokenize_go]
  have hnone : (c :: cs).get? (cs.length + 1) = none := by
    rw [List.get?_eq_none]
    simp
  rw [hnone]
  show Except.map _ (Except.ok []) = _
  rw [← hdata, string_mk_data]
  rfl


/-- C7 as amended: a token beginning with an ASCII digit is scanned as
a maximal run of digits and dots (possibly several dots) and emitted as
a single `Value` token built by `Types.create`; a run without a dot is
numeric (an integer literal, or a float when it overflows `i64`); a run
with exactly one dot is a float literal; but a run with two or more
dots parses as neither `i64` nor `f64` and is emitted as a `String`
literal token — a digit-initiated token can become a string token. -/
theorem claim7_digit_token (s : String) (c : Char) (cs : List Char)
    (hdata : s.data = c :: cs) (hc : c.isDigit = true)
    (h₂ : ∀ x ∈ s.data, x.isDigit = true ∨ x = '.') :
    tokenize_line s = .ok [.Value (Types.create s)]
    ∧ (s.data.count '.' = 0 →
        (∃ v, Types.create s = .Number v) ∨ ∃ q, Types.create s = .Float q)
    ∧ (s.data.count '.' = 1 → ∃ q, Types.create s = .Float q)
    ∧ (2 ≤ s.data.count '.' → Types.create s = .String s) := by
  have hnum : ∀ x ∈ c :: cs, is_num_char x = true := by
    intro x hx
    rcases h₂ x (hdata ▸ hx) with h | h <;> simp [is_num_char, h]
  refine ⟨tokenize_line_digit_run s c cs hdata hc hnum, ?_, ?_, ?_⟩
  · intro h0
    have hall : ∀ x ∈ c :: cs, x.isDigit = true := by
      intro x hx
      rcases h₂ x (hdata ▸ hx) with h | h
      · exact h
      · exfalso
        rw [h] at hx
        have hmem : ('.' : Char) ∈ s.data := hdata ▸ hx
        rw [← List.count_pos_iff] at hmem
        omega
    rw [Types.create]
    cases hi : parse_i64 s with
    | some v => exact Or.inl ⟨v, rfl⟩
    | none =>
      obtain ⟨q, hq⟩ := parse_f64_all_digits s c cs hdata hc hall
      rw [hq]
      exact Or.inr ⟨q, rfl⟩
  · intro h1
    have hdot : '.' ∈ s.data := by
      rw [← List.count_pos_iff]
      omega
    obtain ⟨r₂, hd2⟩ :
        ∃ r₂, (c :: cs).dropWhile Char.isDigit = '.' :: r₂ := by
      cases hd : (c :: cs).dropWhile Char.isDigit with
      | nil =>
        exfalso
        have hall := List.dropWhile_eq_nil_iff.mp hd '.' (hdata ▸ hdot)
        simp at hall
      | cons d r₂ =>
        have hdF : Char.isDigit d = false := dropWhile_head_false _ _ _ _ hd
        have hdmem : d ∈ c :: cs :=
          mem_of_dropWhile_cons _ _ _ _ hd d (by simp)
        rcases h₂ d (hdata ▸ hdmem) with h | h
        · rw [h] at hdF; cases hdF
        · exact ⟨r₂, by rw [← h]⟩
    have hcnt_take : ((c :: cs).takeWhile Char.isDigit).count '.' = 0 := by
      rw [List.count_eq_zero]
      intro hmem
      have := List.mem_takeWhile_imp hmem
      simp at this
    have hcount : s.data.count '.' =
        ((c :: cs).takeWhile Char.isDigit).count '.' + (r₂.count '.' + 1) := by
      conv => lhs; rw [hdata, ← List.takeWhile_append_dropWhile Char.isDigit (c :: cs)]
      rw [List.count_append, hd2, List.count_cons_self]
    have hr₂0 : r₂.count '.' = 0 := by omega
    have hr₂ : ∀ x ∈ r₂, x.isDigit = true := by
      intro x hx
      rcases h₂ x (hdata ▸ mem_of_dropWhile_cons _ _ _ _ hd2 x
          (List.mem_cons_of_mem _ hx)) with h | h
      · exact h
      · exfalso
        subst h
        rw [List.count_eq_zero] at hr₂0
        exact hr₂0 hx
    obtain ⟨q, hq⟩ := parse_f64_one_dot s c cs r₂ hdata hc hd2 hr₂
    rw [Types.create, parse_i64_none_of_dot s c cs hdata hc hdot, hq]
    exact ⟨q, rfl⟩
  · intro h2cnt
    have hdot : '.' ∈ s.data := by
      rw [← List.count_pos_iff]
      omega
    obtain ⟨r₂, hd2⟩ :
        ∃ r₂, (c :: cs).dropWhile Char.isDigit = '.' :: r₂ := by
      cases hd : (c :: cs).dropWhile Char.isDigit with
      | nil =>
        exfalso
        have hall := List.dropWhile_eq_nil_iff.mp hd '.' (hdata ▸ hdot)
        simp at hall
      | cons d r₂ =>
        have hdF : Char.isDigit d = false := dropWhile_head_false _ _ _ _ hd
        have hdmem : d ∈ c :: cs :=
          mem_of_dropWhile_cons _ _ _ _ hd d (by simp)
        rcases h₂ d (hdata ▸ hdmem) with h | h
        · rw [h] at hdF; cases hdF
        · exact ⟨r₂, by rw [← h]⟩
    have hcnt_take : ((c :: cs).takeWhile Char.isDigit).count '.' = 0 := by
      rw [List.count_eq_zero]
      intro hmem
      have := List.mem_takeWhile_imp hmem
      simp at this
    have hcount : s.data.count '.' =
        ((c :: cs).takeWhile Char.isDigit).count '.' + (r₂.count '.' + 1) := by
      conv => lhs; rw [hdata, ← List.takeWhile_append_dropWhile Char.isDigit (c :: cs)]
      rw [List.count_append, hd2, List.count_cons_self]
    have hdot₂ : '.' ∈ r₂ := by
      rw [← List.count_pos_iff]
      omega
    obtain ⟨r₄, hd4⟩ : ∃ r₄, r₂.dropWhile Char.isDigit = '.' :: r₄ := by
      cases hd : r₂.dropWhile Char.isDigit with
      | nil =>
        exfalso
        have hall := List.dropWhile_eq_nil_iff.mp hd '.' hdot₂
        simp at hall
      | cons d r₄ =>
        have hdF : Char.isDigit d = false := dropWhile_head_false _ _ _ _ hd
        have hdmem : d ∈ r₂ := mem_of_dropWhile_cons _ _ _ _ hd d (by simp)
        have hdmem' : d ∈ s.data :=
          hdata ▸ mem_of_dropWhile_cons _ _ _ _ hd2 d
            (List.mem_cons_of_mem _ hdmem)
        rcases h₂ d hdmem' with h | h
        · rw [h] at hdF; cases hdF
        · exact ⟨r₄, by rw [← h]⟩
    rw [Types.create, parse_i64_none_of_dot s c cs hdata hc hdot,
      parse_f64_none_two_dots s c cs r₂ r₄ hdata hc hd2 hd4]
    have ht : ¬(s = "true") := by
      intro h
      have hmem : ('t' : Char) ∈ s.data := by rw [h]; decide
      rcases h₂ 't' hmem with hh | hh <;> exact absurd hh (by decide)
    have hf : ¬(s = "false") := by
      intro h
      have hmem : ('f' : Char) ∈ s.data := by rw [h]; decide
      rcases h₂ 'f' hmem with hh | hh <;> exact absurd hh (by decide)
    rw [if_neg ht, if_neg hf]

/-- C7 counterexample: the digit-initiated run `1.2.3` (more than one
dot) lexes to a single `String` literal value token, not a numeric
token — the claim says a digit-initiated token is always numeric, with
at most one dot. -/
theorem claim7_counterexample :
    tokenize_line "1.2.3" = .ok [.Value (.String "1.2.3")]
    ∧ Types.create "1.2.3" = .String "1.2.3" :=
  ⟨rfl, rfl⟩

/-- Witness for C7 at the one-dot run `12.5`. -/
theorem claim7_digit_token_witness :
    tokenize_line "12.5" = .ok [.Value (Types.create "12.5")]
    ∧ ∃ q, Types.create "12.5" = .Float q := by
  have h := claim7_digit_token "12.5" '1' ['2', '.', '5'] rfl (by decide)
    (by decide)
  exact ⟨h.1, h.2.2.1 (by decide)⟩

end Cylium
